import Mathlib

/-!
Verification development for the DocSort OCR subsystem.

Shallow embedding of:
* `docsort/app/storage/ocr_job_store.py` — job tracker (`upsert_job`,
  `can_retry`, `mark_stalled_jobs`), modelled as pure functions over a list
  of rows keyed by `job_key` (the sqlite table has `job_key` as primary key;
  `INSERT ... ON CONFLICT DO UPDATE` becomes `putJob`).  Timestamps are
  modelled as `Option Int`: `some t` is a parsable `updated_at` holding time
  `t` in seconds, `none` is an unparsable legacy string (`_parse_dt` fails).
  `_effective_fingerprint` performs file I/O; the effective fingerprint is
  therefore taken as a parameter of `upsertJob`, exactly as the rest of the
  function consumes it.
* `docsort/app/storage/ocr_cache_store.py` — `get_cached_text`, with the
  lazily computed `compute_fingerprint` result passed as the `computedFp`
  parameter (the Python `fingerprint or compute_fingerprint(...)` idiom).
* `docsort/app/services/ocr_suggestion_service.py` — `get_text_for_pdf`
  and the per-page retry loop `_ocr_page_with_retries` inside `_try_ocr`.
  The filesystem / sqlite / tesseract environment of one call is captured in
  `TextEnv`; the result record also reports which side effects the call
  performed (persistent-cache read/write, direct extraction, recognition),
  mirroring the log lines and calls the Python code emits.  The in-process
  memoizer (`_text_cache`, an `OrderedDict` with capacity 128) is an
  association list whose head is the least recently used entry.
* `docsort/app/services/pdf_utils.py` — `extract_pdf_text`, over an
  abstract list of per-page outcomes (text returned, `None` returned, or an
  exception raised by `page.extract_text()`).
-/

namespace DocSort

/-! ## String helpers

Structural stand-ins for the Python string primitives the code uses, chosen
so that every definition evaluates by kernel reduction. -/

/-- Python `str.upper()` (character-wise, as the code only upper-cases ASCII
status words). -/
def pyUpper (s : String) : String := ⟨s.data.map Char.toUpper⟩

/-- Helper for `pyWordCount`: counts maximal whitespace-free runs, tracking
whether the previous character was inside a word. -/
def pyWordCountAux : List Char → Bool → Nat
  | [], _ => 0
  | c :: rest, inWord =>
    if c.isWhitespace then pyWordCountAux rest false
    else (if inWord then 0 else 1) + pyWordCountAux rest true

/-- Word count of Python `text.split()`: number of maximal whitespace-free
runs. -/
def pyWordCount (s : String) : Nat := pyWordCountAux s.data false

/-- Python `str.strip()`: drop leading and trailing whitespace. -/
def pyStrip (s : String) : String :=
  ⟨((s.data.dropWhile Char.isWhitespace).reverse.dropWhile Char.isWhitespace).reverse⟩

/-- Python `"\n".join(...)`. -/
def joinNl : List String → String
  | [] => ""
  | [x] => x
  | x :: rest => x ++ "\n" ++ joinNl rest

/-! ## Job store (`ocr_job_store.py`) -/

def STATUS_ALLOWED : List String := ["QUEUED", "RUNNING", "DONE", "FAILED"]

def DEFAULT_MAX_ATTEMPTS : Int := 3

structure JobRow where
  jobKey : String
  filePath : String
  fingerprint : Option String
  maxPages : Int
  status : String
  updatedAt : Option Int
  attempts : Int
  lastError : Option String
  workerId : Option String
  maxAttempts : Int
deriving DecidableEq

/-- Key construction of `_job_key`: `f"{norm_path}|{max_pages}|{fingerprint or ''}"`. -/
def jobKeyOf (normPath : String) (maxPages : Int) (fingerprint : Option String) : String :=
  normPath ++ "|" ++ toString maxPages ++ "|" ++ (match fingerprint with | some f => f | none => "")

def findJob (store : List JobRow) (key : String) : Option JobRow :=
  store.find? (fun r => r.jobKey == key)

/-- Column set updated by the `ON CONFLICT(job_key) DO UPDATE` clause of
`upsert_job`: status, updated_at, last_error, worker_id, attempts,
max_attempts.  Identity columns of the existing row are kept. -/
def mergeRow (old new : JobRow) : JobRow :=
  { old with
    status := new.status
    updatedAt := new.updatedAt
    lastError := new.lastError
    workerId := new.workerId
    attempts := new.attempts
    maxAttempts := new.maxAttempts }

def putJob (store : List JobRow) (new : JobRow) : List JobRow :=
  if store.any (fun r => r.jobKey == new.jobKey) then
    store.map (fun old => if old.jobKey == new.jobKey then mergeRow old new else old)
  else
    store ++ [new]

/-- Row computed by `upsert_job` from the prior row (if any) and the request,
after the status string has been validated and upper-cased. -/
def upsertRow (prior : Option JobRow) (now : Int) (normPath : String) (maxPages : Int)
    (statusU : String) (fingerprint : Option String) (lastError : Option String)
    (workerId : Option String) (maxAttempts : Int) : JobRow :=
  let priorAttempts : Int := match prior with | some r => r.attempts | none => 0
  let capped : Int := match prior with | some r => max maxAttempts r.maxAttempts | none => maxAttempts
  let coerced : Prop := (statusU = "QUEUED" ∨ statusU = "RUNNING") ∧ capped ≤ priorAttempts
  { jobKey := jobKeyOf normPath maxPages fingerprint
    filePath := normPath
    fingerprint := fingerprint
    maxPages := maxPages
    status := if coerced then "FAILED" else statusU
    updatedAt := some now
    attempts :=
      if coerced then priorAttempts
      else if statusU = "RUNNING" then priorAttempts + 1
      else priorAttempts
    lastError :=
      if coerced then some ("Max attempts exceeded (" ++ toString capped ++ ")")
      else match lastError with
        | some e => some e
        | none => match prior with | some r => r.lastError | none => none
    workerId := match workerId with
      | some w => some w
      | none => match prior with | some r => r.workerId | none => none
    maxAttempts := capped }

/-- `upsert_job`: invalid statuses are ignored; otherwise the prior row is
read by key and the computed row is written through the conflict clause. -/
def upsertJob (store : List JobRow) (now : Int) (normPath : String) (maxPages : Int)
    (status : String) (fingerprint : Option String) (lastError : Option String)
    (workerId : Option String) (maxAttempts : Int) : List JobRow :=
  let statusU := pyUpper status
  if statusU ∈ STATUS_ALLOWED then
    let key := jobKeyOf normPath maxPages fingerprint
    putJob store
      (upsertRow (findJob store key) now normPath maxPages statusU fingerprint lastError
        workerId maxAttempts)
  else
    store

/-- View of the dictionary handed to `can_retry`: `none` models a missing or
unparsable field (the `int(...)`-with-fallback reads). -/
structure JobView where
  attempts : Option Int
  maxAttempts : Option Int
deriving DecidableEq

/-- `can_retry(job, max_attempts)`: `attempts < cap` where
`cap = int(job.get("max_attempts", max_attempts))`. -/
def canRetry (job : JobView) (maxAttempts : Int) : Bool :=
  decide (job.attempts.getD 0 < job.maxAttempts.getD maxAttempts)

/-- Claim-side comparison function for C3, following the spec sentence
"ceiling = max of the record's stored ceiling and the supplied default". -/
def canRetryClaimed (job : JobView) (maxAttempts : Int) : Bool :=
  decide (job.attempts.getD 0 < max (job.maxAttempts.getD maxAttempts) maxAttempts)

/-- Stall reason computed by `mark_stalled_jobs` for a row, `none` when the
row is left alone.  Cutoffs are `now - timedelta(seconds=...)` and the
comparison is strict (`parsed < cutoff`). -/
def stallReason (now runningStale queuedStale : Int) (r : JobRow) : Option String :=
  if r.status = "RUNNING" ∨ r.status = "QUEUED" then
    match r.updatedAt with
    | none => some "Invalid updated_at; treated as stalled"
    | some t =>
      if r.status = "RUNNING" ∧ t < now - runningStale then
        some ("Stalled: RUNNING > " ++ toString runningStale ++ "s (timeout)")
      else if r.status = "QUEUED" ∧ t < now - queuedStale then
        some ("Stalled: QUEUED > " ++ toString queuedStale ++ "s (not picked up)")
      else none
  else none

/-- The `UPDATE ... SET status = FAILED, last_error = reason, updated_at = now,
worker_id = workerId` applied to one row of `mark_stalled_jobs`, or the
identity when the row has no stall reason. -/
def sweepRow (now runningStale queuedStale : Int) (workerId : String) (r : JobRow) : JobRow :=
  match stallReason now runningStale queuedStale r with
  | some reason =>
    { r with
      status := "FAILED"
      lastError := some reason
      updatedAt := some now
      workerId := some workerId }
  | none => r

/-- `mark_stalled_jobs`: every RUNNING/QUEUED row with a stall reason is
updated to FAILED (with the reason, a fresh timestamp and the sweeping
worker id); the number of updated rows is returned. -/
def markStalledJobs (store : List JobRow) (now : Int) (runningStale queuedStale : Int)
    (workerId : String) : List JobRow × Nat :=
  (store.map (sweepRow now runningStale queuedStale workerId),
   (store.filter (fun r => (stallReason now runningStale queuedStale r).isSome)).length)

/-- Stall condition exactly as claim C4 words it (independent of
`stallReason`): RUNNING and older than the running timeout, or QUEUED and
older than the queued timeout, or RUNNING/QUEUED with unparsable timestamp. -/
def stalledPerClaim (now runningStale queuedStale : Int) (r : JobRow) : Prop :=
  (r.status = "RUNNING" ∧ ∃ t, r.updatedAt = some t ∧ t < now - runningStale) ∨
  (r.status = "QUEUED" ∧ ∃ t, r.updatedAt = some t ∧ t < now - queuedStale) ∨
  ((r.status = "RUNNING" ∨ r.status = "QUEUED") ∧ r.updatedAt = none)

/-- Boolean twin of `stalledPerClaim`, used to count rows. -/
def stalledPerClaimB (now runningStale queuedStale : Int) (r : JobRow) : Bool :=
  match r.updatedAt with
  | none => r.status == "RUNNING" || r.status == "QUEUED"
  | some t =>
    (r.status == "RUNNING" && decide (t < now - runningStale)) ||
    (r.status == "QUEUED" && decide (t < now - queuedStale))

/-! ## Persistent text cache (`ocr_cache_store.py`) -/

def OCR_ENGINE_VERSION : Int := 1

structure CacheRow where
  filePath : String
  fingerprint : String
  maxPages : Int
  text : String
  engineVersion : Int
deriving DecidableEq

/-- `get_cached_text(path, max_pages, fingerprint)`.  `computedFp` is the
value `compute_fingerprint(Path(path))` would produce (the function is only
consulted when the supplied fingerprint is falsy, per `fingerprint or
compute_fingerprint(...)`); `""` models a stat failure.  A row is returned
only when its stored text is non-empty (`if row and row[0]`). -/
def getCachedText (db : List CacheRow) (path : String) (maxPages : Int)
    (fingerprint : Option String) (computedFp : String) : String :=
  let eff := match fingerprint with
    | some f => if f = "" then computedFp else f
    | none => computedFp
  if eff = "" then ""
  else
    match db.find? (fun r =>
        r.filePath == path && r.fingerprint == eff && r.maxPages == maxPages &&
        r.engineVersion == OCR_ENGINE_VERSION) with
    | some r => if r.text = "" then "" else r.text
    | none => ""

/-! ## Extraction pipeline (`ocr_suggestion_service.py`) -/

/-- In-process memoizer `_text_cache`: an `OrderedDict` of capacity 128,
head = least recently used. -/
abbrev Memo := List (String × String)

def TEXT_CACHE_MAX_ENTRIES : Nat := 128

def memoLookup (m : Memo) (k : String) : Option String :=
  (m.find? (fun e => e.1 == k)).map (fun e => e.2)

def memoErase (m : Memo) (k : String) : Memo :=
  m.filter (fun e => !(e.1 == k))

/-- `_text_cache.move_to_end(key)` on a present key. -/
def memoMoveToEnd (m : Memo) (k : String) : Memo :=
  match memoLookup m k with
  | some v => memoErase m k ++ [(k, v)]
  | none => m

/-- `_text_cache[key] = v` followed by `move_to_end(key)` and the
`popitem(last=False)` eviction when the size exceeds the capacity. -/
def memoPut (m : Memo) (k v : String) : Memo :=
  let m1 := memoErase m k ++ [(k, v)]
  if TEXT_CACHE_MAX_ENTRIES < m1.length then m1.drop 1 else m1

/-- `_cache_key(path, max_pages)`: `f"{path.resolve()}::{mtime}::{max_pages}"`
(`mtime = 0` when `stat` fails); `path` stands for the resolved path. -/
def textCacheKey (path : String) (mtime : Int) (maxPages : Int) : String :=
  path ++ "::" ++ toString mtime ++ "::" ++ toString maxPages

/-- Environment of one `get_text_for_pdf` call: what the filesystem, the
persistent cache and the two extraction engines would answer. -/
structure TextEnv where
  /-- `pdf_path.exists()` -/
  fileExists : Bool
  /-- integer mtime used by `_cache_key` (0 when `stat` fails) -/
  mtime : Int
  /-- `compute_fingerprint(pdf_path)`; `""` models a stat failure -/
  fingerprint : String
  /-- result of `get_cached_text` (exceptions are already folded to `""`) -/
  cachedText : String
  /-- result of `_try_pypdf_text` (exceptions folded to `""`) -/
  directText : String
  /-- `ocr_input_cache.cache_pdf_for_ocr(pdf_path)` -/
  ocrStagedPath : Option String
  /-- `_try_ocr(cached_path, ...)` result -/
  ocrTextStaged : String
  /-- `_try_ocr(pdf_path, ...)` result -/
  ocrTextDirect : String
deriving DecidableEq

/-- Result of one `get_text_for_pdf` call plus the side effects it made. -/
structure TextResult where
  text : String
  memo : Memo
  /-- whether `get_cached_text` was consulted -/
  persistentRead : Bool
  /-- text passed to `upsert_cached_text`, when the write happens -/
  persistentWrite : Option String
  /-- whether `_try_pypdf_text` ran -/
  directCalled : Bool
  /-- whether the recognition fallback (`_try_ocr`) ran -/
  ocrCalled : Bool
deriving DecidableEq

/-- `get_text_for_pdf(path, max_pages)`; `path` stands for the resolved path. -/
def getTextForPdf (env : TextEnv) (memo : Memo) (path : String) (maxPages : Int) : TextResult :=
  if env.fileExists then
    let key := textCacheKey path env.mtime maxPages
    match memoLookup memo key with
    | some v =>
      { text := v, memo := memoMoveToEnd memo key, persistentRead := false,
        persistentWrite := none, directCalled := false, ocrCalled := false }
    | none =>
      let text0 := if env.fingerprint = "" then "" else env.cachedText
      let text1 := if text0 = "" then env.directText else text0
      let weakB : Bool := decide (text1.length < 200) || decide (pyWordCount text1 < 15)
      let ocrRaw := match env.ocrStagedPath with
        | some _ => env.ocrTextStaged
        | none => env.ocrTextDirect
      let text2 := if weakB then (if ocrRaw = "" then text1 else ocrRaw) else text1
      { text := text2
        memo := memoPut memo key text2
        persistentRead := !(env.fingerprint == "")
        persistentWrite := if env.fingerprint = "" then none else some text2
        directCalled := text0 == ""
        ocrCalled := weakB }
  else
    { text := "", memo := memo, persistentRead := false, persistentWrite := none,
      directCalled := false, ocrCalled := false }

/-! ## Recognition retry loop (`_try_ocr` / `_ocr_page_with_retries`) -/

def OCR_MAX_PAGES : Int := 2

def WEAK_TEXT_CHARS : Nat := 120

def WEAK_TEXT_WORDS : Nat := 18

def OCR_DPI : ℚ := 300

def OCR_PSMS : List Int := [6, 11, 4]

/-- `_is_weak_text` inside `_try_ocr`. -/
def isWeakOcr (s : String) : Bool :=
  decide (s.length < WEAK_TEXT_CHARS) || decide (pyWordCount s < WEAK_TEXT_WORDS)

/-- Outcome of one `_ocr_page(doc, page, scale, psm)` call: the text and its
`_text_quality_score` (exact rational stand-in for the float score). -/
structure OcrAttempt where
  text : String
  score : ℚ
deriving DecidableEq

/-- `scale_psm_plan` of `_ocr_page_with_retries`: a single scale
(`_OCR_DPI / 72`) carrying the full segmentation-mode list. -/
def scalePsmPlan : List (ℚ × List Int) := [(OCR_DPI / 72, OCR_PSMS)]

/-- Inner `for psm in psms` loop: every mode is attempted, the best strictly
improving score is kept, and each attempt is appended to the trace. -/
def runPsmPass (attempt : ℚ → Int → OcrAttempt) (scale : ℚ) :
    List Int → String → ℚ → List (ℚ × Int) → String × ℚ × List (ℚ × Int)
  | [], best, bestScore, tried => (best, bestScore, tried)
  | psm :: rest, best, bestScore, tried =>
    let a := attempt scale psm
    if bestScore < a.score then
      runPsmPass attempt scale rest a.text a.score (tried ++ [(scale, psm)])
    else
      runPsmPass attempt scale rest best bestScore (tried ++ [(scale, psm)])

/-- Outer `for scale_idx, (scale, psms) in enumerate(scale_psm_plan)` loop
with the `if best_text and not _is_weak_text(best_text): break` check that
runs only after a scale's mode list is exhausted. -/
def runScalePlan (attempt : ℚ → Int → OcrAttempt) :
    List (ℚ × List Int) → String → ℚ → List (ℚ × Int) → String × List (ℚ × Int)
  | [], best, _, tried => (best, tried)
  | (scale, psms) :: rest, best, bestScore, tried =>
    match runPsmPass attempt scale psms best bestScore tried with
    | (best2, bestScore2, tried2) =>
      if best2 ≠ "" ∧ isWeakOcr best2 = false then (best2, tried2)
      else runScalePlan attempt rest best2 bestScore2 tried2

/-- `_ocr_page_with_retries(doc, page)` for one page, parameterised by the
per-attempt oracle; returns the chosen text and the trace of `(scale, psm)`
combinations attempted (the code logs one line per attempt). -/
def ocrPageWithRetries (attempt : ℚ → Int → OcrAttempt) : String × List (ℚ × Int) :=
  runScalePlan attempt scalePsmPlan "" (-1) []

/-! ## Direct text-layer extraction (`pdf_utils.extract_pdf_text`) -/

/-- What `page.extract_text()` did for one page: returned text, returned
`None`, or raised. -/
inductive PageOutcome where
  | ok (s : String)
  | retNone
  | raised
deriving DecidableEq

/-- The page loop of `extract_pdf_text`: stop at `max_pages`; append
`page.extract_text() or ""` on success; on an exception append nothing. -/
def extractPages : List PageOutcome → Nat → List String
  | [], _ => []
  | _, 0 => []
  | p :: rest, Nat.succ n =>
    match p with
    | .ok s => s :: extractPages rest n
    | .retNone => "" :: extractPages rest n
    | .raised => extractPages rest n

/-- `extract_pdf_text(path, max_pages)` on a readable file:
`"\n".join(pages).strip()` and a `None` error. -/
def extractPdfText (pages : List PageOutcome) (maxPages : Nat) : String × Option String :=
  (pyStrip (joinNl (extractPages pages maxPages)), none)

/-- Per-page contribution as the code behaves: raised pages are skipped. -/
def pageContribution : PageOutcome → Option String
  | .ok s => some s
  | .retNone => some ""
  | .raised => none

/-- Per-page contribution as claim C9 words it: a failing page contributes
an empty string, preserving the newline structure. -/
def pageContributionPerClaim : PageOutcome → Option String
  | .ok s => some s
  | .retNone => some ""
  | .raised => some ""

/-- Reference rendering of claim C9's description of the whole read. -/
def extractPdfTextPerClaim (pages : List PageOutcome) (maxPages : Nat) : String × Option String :=
  (pyStrip (joinNl ((pages.take maxPages).filterMap pageContributionPerClaim)), none)

/-! ## Concrete inputs used by counterexamples and witnesses -/

/-- Memoizer-missing environment whose persistent cache holds short text. -/
def c1Env : TextEnv :=
  { fileExists := true
    mtime := 5
    fingerprint := "9:100"
    cachedText := "hello"
    directText := ""
    ocrStagedPath := some "/stage.pdf"
    ocrTextStaged := "RECOGNIZED-TEXT"
    ocrTextDirect := "" }

/-- Strong cached text: 15 words, 224 characters. -/
def c1StrongText : String := String.intercalate " " (List.replicate 15 "abcdefghijklmn")

def c1StrongEnv : TextEnv := { c1Env with cachedText := c1StrongText }

/-- Environment of a file whose `stat` fails: empty fingerprint. -/
def c6Env : TextEnv :=
  { fileExists := true
    mtime := 0
    fingerprint := ""
    cachedText := ""
    directText := "direct words here"
    ocrStagedPath := none
    ocrTextStaged := ""
    ocrTextDirect := "" }

/-- 50 characters, 5 words. -/
def c7Text50 : String := "aaaaaaaaaa bbbbbbbbbb cccccccccc dddddddddd eeeeee"

/-- 500 characters, 80 words. -/
def c7Text500 : String :=
  String.intercalate " " (List.replicate 79 "abcde" ++ ["abcdefghijklmnopqrstuvwxyz"])

def c7Env50 : TextEnv :=
  { fileExists := true
    mtime := 0
    fingerprint := ""
    cachedText := ""
    directText := c7Text50
    ocrStagedPath := some "/s.pdf"
    ocrTextStaged := ""
    ocrTextDirect := "" }

def c7Env500 : TextEnv := { c7Env50 with directText := c7Text500 }

def c2Key : String := jobKeyOf "p" 1 (some "f")

/-- Three consecutive RUNNING upserts for one identity with ceiling 3. -/
def c2Store1 : List JobRow := upsertJob [] 0 "p" 1 "RUNNING" (some "f") none none 3

def c2Store2 : List JobRow := upsertJob c2Store1 1 "p" 1 "RUNNING" (some "f") none none 3

def c2Store3 : List JobRow := upsertJob c2Store2 2 "p" 1 "RUNNING" (some "f") none none 3

/-- The row stored after the three RUNNING upserts. -/
def c2Row3 : JobRow :=
  { jobKey := "p|1|f"
    filePath := "p"
    fingerprint := some "f"
    maxPages := 1
    status := "RUNNING"
    updatedAt := some 2
    attempts := 3
    lastError := none
    workerId := none
    maxAttempts := 3 }

def c5Store : List JobRow := upsertJob [] 0 "q" 1 "DONE" (some "g") none none 5

def c5Row : JobRow :=
  { jobKey := "q|1|g"
    filePath := "q"
    fingerprint := some "g"
    maxPages := 1
    status := "DONE"
    updatedAt := some 0
    attempts := 0
    lastError := none
    workerId := none
    maxAttempts := 5 }

/-- Sweep inputs: a stale RUNNING row, a fresh RUNNING row, an old DONE row
and a QUEUED row with an unparsable timestamp. -/
def c4Store : List JobRow :=
  [{ jobKey := "a", filePath := "a", fingerprint := none, maxPages := 1, status := "RUNNING",
     updatedAt := some 600, attempts := 1, lastError := none, workerId := none, maxAttempts := 3 },
   { jobKey := "b", filePath := "b", fingerprint := none, maxPages := 1, status := "RUNNING",
     updatedAt := some 1000, attempts := 1, lastError := none, workerId := none, maxAttempts := 3 },
   { jobKey := "c", filePath := "c", fingerprint := none, maxPages := 1, status := "DONE",
     updatedAt := some 0, attempts := 1, lastError := none, workerId := none, maxAttempts := 3 },
   { jobKey := "d", filePath := "d", fingerprint := none, maxPages := 1, status := "QUEUED",
     updatedAt := none, attempts := 0, lastError := none, workerId := none, maxAttempts := 3 }]

/-- Strong recognition output: 18 words, 143 characters. -/
def c8StrongText : String := String.intercalate " " (List.replicate 18 "abcdefg")

/-- Attempt oracle whose very first combination (psm 6) is already strong. -/
def c8AttemptStrongFirst : ℚ → Int → OcrAttempt :=
  fun _ psm => if psm = 6 then ⟨c8StrongText, 100⟩ else ⟨"", 0⟩

/-- A three-page document whose middle page raises in `extract_text`. -/
def c9Pages : List PageOutcome := [.ok "A", .raised, .ok "B"]

/-! ## Helper lemmas -/

theorem memoErase_find_none (m : Memo) (k : String) :
    (memoErase m k).find? (fun e => e.1 == k) = none := by
  rw [List.find?_eq_none]
  intro e he
  have h := (List.mem_filter.mp he).2
  simp only [Bool.not_eq_true'] at h
  simp [h]

theorem find?_append_of_none {α : Type} (p : α → Bool) (l1 l2 : List α)
    (h : l1.find? p = none) :
    (l1 ++ l2).find? p = l2.find? p := by
  induction l1 with
  | nil => rfl
  | cons e rest ih =>
    rw [List.find?_cons] at h
    cases he : p e with
    | true => rw [he] at h; exact absurd h (by simp)
    | false =>
      rw [he] at h
      simpa [List.find?_cons, he] using ih h

theorem memoLookup_append_single (l : Memo) (k v : String)
    (h : l.find? (fun e => e.1 == k) = none) :
    memoLookup (l ++ [(k, v)]) k = some v := by
  simp [memoLookup, find?_append_of_none _ _ _ h]

theorem memoLookup_memoPut (m : Memo) (k v : String) :
    memoLookup (memoPut m k v) k = some v := by
  simp only [memoPut]
  split
  · rename_i hlen
    have h1 : 1 ≤ (memoErase m k).length := by
      simp only [TEXT_CACHE_MAX_ENTRIES, List.length_append, List.length_singleton] at hlen
      omega
    rw [List.drop_append_of_le_length h1]
    apply memoLookup_append_single
    rw [List.find?_eq_none]
    intro e he
    have hmem : e ∈ memoErase m k := List.drop_subset _ _ he
    have := List.find?_eq_none.mp (memoErase_find_none m k) e hmem
    exact this
  · exact memoLookup_append_single _ _ _ (memoErase_find_none m k)

theorem mergeRow_jobKey (old new : JobRow) : (mergeRow old new).jobKey = old.jobKey := rfl

theorem find?_map_keyed (rest : List JobRow) (key : String) (f : JobRow → JobRow)
    (hf : ∀ r, (f r).jobKey = r.jobKey) :
    (rest.map (fun old => if (old.jobKey == key) = true then f old else old)).find?
        (fun x => x.jobKey == key) =
      (rest.find? (fun x => x.jobKey == key)).map
        (fun old => if (old.jobKey == key) = true then f old else old) := by
  induction rest with
  | nil => rfl
  | cons r rest ih =>
    obtain h | h : (r.jobKey == key) = false ∨ (r.jobKey == key) = true := by
      cases r.jobKey == key
      · exact Or.inl rfl
      · exact Or.inr rfl
    · have hif : (if (r.jobKey == key) = true then f r else r) = r := if_neg (by simp [h])
      simp only [List.map_cons]
      rw [hif]
      rw [@List.find?_cons_of_neg _ (fun x => x.jobKey == key) r _ (by simp [h])]
      rw [@List.find?_cons_of_neg _ (fun x => x.jobKey == key) r _ (by simp [h])]
      exact ih
    · have hif : (if (r.jobKey == key) = true then f r else r) = f r := if_pos h
      simp only [List.map_cons]
      rw [hif]
      rw [@List.find?_cons_of_pos _ (fun x => x.jobKey == key) (f r) _ (by simp [hf r, h])]
      rw [@List.find?_cons_of_pos _ (fun x => x.jobKey == key) r _ h]
      have heq : r.jobKey = key := by simpa using h
      simp [heq]

theorem findJob_putJob (store : List JobRow) (new : JobRow) :
    findJob (putJob store new) new.jobKey =
      some (match findJob store new.jobKey with
            | some old => mergeRow old new
            | none => new) := by
  unfold putJob findJob
  cases hany : store.any (fun r => r.jobKey == new.jobKey) with
  | true =>
    rw [if_pos rfl]
    rw [find?_map_keyed store new.jobKey (fun old => mergeRow old new)
      (fun r => mergeRow_jobKey r new)]
    obtain ⟨x, hx, hpx⟩ := List.any_eq_true.mp hany
    have hsome : (store.find? (fun r => r.jobKey == new.jobKey)).isSome := by
      rw [List.find?_isSome]
      exact ⟨x, hx, hpx⟩
    obtain ⟨old, hold⟩ := Option.isSome_iff_exists.mp hsome
    rw [hold]
    have hp := List.find?_some hold
    simp only [Option.map_some]
    simp at hp
    simp [hp]
  | false =>
    rw [if_neg (by simp)]
    have hnone : store.find? (fun r => r.jobKey == new.jobKey) = none := by
      rw [List.find?_eq_none]
      intro x hx hpx
      have hA : store.any (fun r => r.jobKey == new.jobKey) = true :=
        List.any_eq_true.mpr ⟨x, hx, hpx⟩
      rw [hany] at hA
      exact Bool.false_ne_true hA
    rw [find?_append_of_none _ _ _ hnone, hnone]
    simp [List.find?_cons]

theorem mem_putJob (store : List JobRow) (new r : JobRow) (hr : r ∈ putJob store new) :
    r ∈ store ∨ r.status = new.status := by
  unfold putJob at hr
  split at hr
  · obtain ⟨old, hold, heq⟩ := List.mem_map.mp hr
    by_cases h : (old.jobKey == new.jobKey) = true
    · rw [if_pos h] at heq
      right
      rw [← heq]
      rfl
    · rw [if_neg h] at heq
      left
      rw [← heq]
      exact hold
  · rcases List.mem_append.mp hr with hl | hr2
    · exact Or.inl hl
    · right
      have : r = new := by simpa using hr2
      rw [this]

theorem findJob_upsertJob (store : List JobRow) (now : Int) (p : String) (mp : Int)
    (st : String) (fpr err wrk : Option String) (ma : Int)
    (hv : pyUpper st ∈ STATUS_ALLOWED) :
    findJob (upsertJob store now p mp st fpr err wrk ma) (jobKeyOf p mp fpr) =
      some (match findJob store (jobKeyOf p mp fpr) with
            | some old => mergeRow old (upsertRow (some old) now p mp (pyUpper st) fpr err wrk ma)
            | none => upsertRow none now p mp (pyUpper st) fpr err wrk ma) := by
  simp only [upsertJob]
  rw [if_pos hv]
  cases hfind : findJob store (jobKeyOf p mp fpr) with
  | none =>
    have h := findJob_putJob store (upsertRow none now p mp (pyUpper st) fpr err wrk ma)
    have hkey : (upsertRow none now p mp (pyUpper st) fpr err wrk ma).jobKey =
        jobKeyOf p mp fpr := rfl
    rw [hkey, hfind] at h
    exact h
  | some old =>
    have h := findJob_putJob store (upsertRow (some old) now p mp (pyUpper st) fpr err wrk ma)
    have hkey : (upsertRow (some old) now p mp (pyUpper st) fpr err wrk ma).jobKey =
        jobKeyOf p mp fpr := rfl
    rw [hkey, hfind] at h
    exact h

/-! ## Claim C3 -/

/-- Claim C3 counterexample: for the record `{attempts := 2, max_attempts := 2}`
and supplied default 3, the claim's effective ceiling is `max 2 5 = 5`, so the
claim demands `canRetry = true`; the code returns `false` because it uses the
stored ceiling alone. -/
theorem C3_counterexample :
    canRetry ⟨some 2, some 2⟩ 5 = false ∧ (2 : Int) < max 2 5 := by
  constructor
  · decide
  · decide

/-- Claim C3 (amended): `canRetry(record, maxAttempts)` returns
`attempts < stored ceiling` when the record carries a stored ceiling (the
supplied default is ignored), and `attempts < supplied default` only when the
record has no usable stored ceiling; this agrees with the claim's
`max(stored, default)` ceiling exactly when the stored ceiling is at least the
supplied default. -/
theorem C3_can_retry_amended :
    (∀ (a : Option Int) (c d : Int), canRetry ⟨a, some c⟩ d = decide (a.getD 0 < c)) ∧
    (∀ (a : Option Int) (d : Int), canRetry ⟨a, none⟩ d = decide (a.getD 0 < d)) ∧
    (∀ (a : Option Int) (c d : Int), d ≤ c →
      canRetry ⟨a, some c⟩ d = canRetryClaimed ⟨a, some c⟩ d) := by
  refine ⟨fun a c d => rfl, fun a d => rfl, fun a c d hdc => ?_⟩
  unfold canRetry canRetryClaimed
  simp only [Option.getD_some, max_eq_left hdc]

/-- Witness for C3: a record whose stored ceiling exceeds the default. -/
theorem C3_witness :
    canRetry ⟨some 1, some 3⟩ 2 = canRetryClaimed ⟨some 1, some 3⟩ 2 :=
  C3_can_retry_amended.2.2 (some 1) 3 2 (by decide)

/-! ## Claim C9 -/

theorem extractPages_eq (pages : List PageOutcome) (n : Nat) :
    extractPages pages n = (pages.take n).filterMap pageContribution := by
  induction pages generalizing n with
  | nil => cases n <;> simp [extractPages]
  | cons p rest ih =>
    cases n with
    | zero => simp [extractPages]
    | succ m => cases p <;> simp [extractPages, pageContribution, ih]

/-- Claim C9 (amended): `extract_pdf_text` reads up to `maxPages` pages and
joins the collected per-page texts with newline separators (stripping
surrounding whitespace); a page returning no text contributes an empty
string, but a page whose extraction raises is skipped entirely — it
contributes no entry and hence no newline slot — without aborting the read. -/
theorem C9_extract_amended (pages : List PageOutcome) (maxPages : Nat) :
    extractPdfText pages maxPages =
      (pyStrip (joinNl ((pages.take maxPages).filterMap pageContribution)), none) ∧
    (extractPages pages maxPages).length ≤ maxPages := by
  constructor
  · unfold extractPdfText
    rw [extractPages_eq]
  · rw [extractPages_eq]
    calc ((pages.take maxPages).filterMap pageContribution).length
        ≤ (pages.take maxPages).length := List.length_filterMap_le _ _
      _ ≤ maxPages := by rw [List.length_take]; omega

/-- Witness for C9: the amended characterisation at a concrete document. -/
theorem C9_witness :
    extractPdfText c9Pages 2 =
      (pyStrip (joinNl ((c9Pages.take 2).filterMap pageContribution)), none) :=
  (C9_extract_amended c9Pages 2).1

/-- Claim C9 counterexample: a three-page document whose middle page raises
yields `"A\nB"`, not the claim's newline-preserving `"A\n\nB"`. -/
theorem C9_counterexample :
    (extractPdfText c9Pages 3).1 = "A\nB" ∧
    (extractPdfTextPerClaim c9Pages 3).1 = "A\n\nB" ∧
    extractPdfText c9Pages 3 ≠ extractPdfTextPerClaim c9Pages 3 := by
  refine ⟨by decide, by decide, by decide⟩

/-! ## Claim C10 -/

/-- Claim C10: an upsert whose upper-cased status is not one of QUEUED,
RUNNING, DONE, FAILED leaves the job store completely unchanged, and any
upsert preserves the invariant that every stored row's status lies in that
four-value set. -/
theorem C10_invalid_status_noop :
    (∀ (store : List JobRow) (now : Int) (p : String) (mp : Int) (st : String)
        (fpr err wrk : Option String) (ma : Int),
      pyUpper st ∉ STATUS_ALLOWED →
      upsertJob store now p mp st fpr err wrk ma = store) ∧
    (∀ (store : List JobRow) (now : Int) (p : String) (mp : Int) (st : String)
        (fpr err wrk : Option String) (ma : Int),
      (∀ r ∈ store, r.status ∈ STATUS_ALLOWED) →
      ∀ r ∈ upsertJob store now p mp st fpr err wrk ma, r.status ∈ STATUS_ALLOWED) := by
  constructor
  · intro store now p mp st fpr err wrk ma hv
    simp only [upsertJob]
    rw [if_neg hv]
  · intro store now p mp st fpr err wrk ma hall r hr
    simp only [upsertJob] at hr
    by_cases hv : pyUpper st ∈ STATUS_ALLOWED
    · rw [if_pos hv] at hr
      rcases mem_putJob _ _ _ hr with hmem | hstat
      · exact hall r hmem
      · rw [hstat]
        simp only [upsertRow]
        split
        · decide
        · exact hv
    · rw [if_neg hv] at hr
      exact hall r hr

/-- Witness for C10: a lower-case bogus status string is silently ignored. -/
theorem C10_witness :
    upsertJob [] 0 "p" 1 "bogus" none none none 3 = [] :=
  C10_invalid_status_noop.1 [] 0 "p" 1 "bogus" none none none 3 (by decide)

/-! ## Claim C8 -/

/-- Claim C8 (amended): for every page, every `(scale, psm)` combination of
the plan's single scale group is attempted regardless of intermediate
strength — the strong-result early exit is checked only after a scale
group's mode list is exhausted, and the plan holds exactly one scale — and
the text kept is the best-scoring attempt (strict improvement over the
running best, which starts as the empty text at score −1, so the earliest
attempt wins ties). -/
theorem C8_retry_amended (attempt : ℚ → Int → OcrAttempt) :
    (ocrPageWithRetries attempt).2 =
      [(OCR_DPI / 72, 6), (OCR_DPI / 72, 11), (OCR_DPI / 72, 4)] ∧
    (ocrPageWithRetries attempt).1 =
      (let a1 := attempt (OCR_DPI / 72) 6
       let a2 := attempt (OCR_DPI / 72) 11
       let a3 := attempt (OCR_DPI / 72) 4
       let b1 := if (-1 : ℚ) < a1.score then a1.text else ""
       let s1 := if (-1 : ℚ) < a1.score then a1.score else (-1 : ℚ)
       let b2 := if s1 < a2.score then a2.text else b1
       let s2 := if s1 < a2.score then a2.score else s1
       if s2 < a3.score then a3.text else b2) := by
  simp only [ocrPageWithRetries, scalePsmPlan, OCR_PSMS, runScalePlan, runPsmPass]
  constructor
  · split_ifs <;> simp [runScalePlan]
  · split_ifs <;> simp [runScalePlan]

set_option maxRecDepth 20000 in
/-- Claim C8 counterexample: an oracle whose very first combination already
yields a strong result (143 characters, 18 words) still sees all three
`(scale, psm)` combinations attempted — the claim's early stop does not
happen inside the single scale group. -/
theorem C8_counterexample :
    isWeakOcr c8StrongText = false ∧
    c8AttemptStrongFirst (OCR_DPI / 72) 6 = ⟨c8StrongText, 100⟩ ∧
    (ocrPageWithRetries c8AttemptStrongFirst).2.head? = some (OCR_DPI / 72, 6) ∧
    (ocrPageWithRetries c8AttemptStrongFirst).2.length = 3 := by
  refine ⟨by decide, rfl, rfl, by decide⟩

/-- Witness for C8: the full attempt trace at a concrete oracle. -/
theorem C8_witness :
    (ocrPageWithRetries c8AttemptStrongFirst).2 =
      [(OCR_DPI / 72, 6), (OCR_DPI / 72, 11), (OCR_DPI / 72, 4)] :=
  (C8_retry_amended c8AttemptStrongFirst).1

/-! ## Claim C2 -/

/-- Claim C2: once a job identity's stored attempts meet or exceed the
effective ceiling (the larger of the requested and previously stored
max-attempts), any QUEUED/RUNNING upsert writes FAILED with the synthetic
"Max attempts exceeded" message and does not change attempts; attempts grows
by one exactly on an accepted RUNNING request and stays fixed otherwise; and
three consecutive RUNNING upserts with ceiling 3 followed by a QUEUED request
yield a FAILED record on which `canRetry` is false. -/
theorem C2_attempt_cap :
    (∀ (store : List JobRow) (now : Int) (p : String) (mp : Int) (st : String)
        (fpr err wrk : Option String) (ma : Int) (r : JobRow),
      findJob store (jobKeyOf p mp fpr) = some r →
      (pyUpper st = "QUEUED" ∨ pyUpper st = "RUNNING") →
      max ma r.maxAttempts ≤ r.attempts →
      ∃ r2, findJob (upsertJob store now p mp st fpr err wrk ma) (jobKeyOf p mp fpr) = some r2 ∧
        r2.status = "FAILED" ∧
        r2.lastError = some ("Max attempts exceeded (" ++ toString (max ma r.maxAttempts) ++ ")") ∧
        r2.attempts = r.attempts) ∧
    (∀ (store : List JobRow) (now : Int) (p : String) (mp : Int) (st : String)
        (fpr err wrk : Option String) (ma : Int) (r : JobRow),
      findJob store (jobKeyOf p mp fpr) = some r →
      pyUpper st ∈ STATUS_ALLOWED →
      ∃ r2, findJob (upsertJob store now p mp st fpr err wrk ma) (jobKeyOf p mp fpr) = some r2 ∧
        r2.attempts =
          (if pyUpper st = "RUNNING" ∧ r.attempts < max ma r.maxAttempts
           then r.attempts + 1 else r.attempts)) ∧
    ((findJob (upsertJob c2Store3 3 "p" 1 "QUEUED" (some "f") none none 3) c2Key).map
        (fun r => (r.status, r.lastError, r.attempts,
          canRetry ⟨some r.attempts, some r.maxAttempts⟩ DEFAULT_MAX_ATTEMPTS)) =
      some ("FAILED", some "Max attempts exceeded (3)", 3, false)) := by
  refine ⟨?_, ?_, by decide⟩
  · intro store now p mp st fpr err wrk ma r hfind hst hcap
    have hv : pyUpper st ∈ STATUS_ALLOWED := by
      rcases hst with h | h <;> rw [h] <;> decide
    have h := findJob_upsertJob store now p mp st fpr err wrk ma hv
    rw [hfind] at h
    refine ⟨_, h, ?_, ?_, ?_⟩
    · show (upsertRow (some r) now p mp (pyUpper st) fpr err wrk ma).status = "FAILED"
      simp only [upsertRow]
      rw [if_pos ⟨hst, hcap⟩]
    · show (upsertRow (some r) now p mp (pyUpper st) fpr err wrk ma).lastError =
        some ("Max attempts exceeded (" ++ toString (max ma r.maxAttempts) ++ ")")
      simp only [upsertRow]
      rw [if_pos ⟨hst, hcap⟩]
    · show (upsertRow (some r) now p mp (pyUpper st) fpr err wrk ma).attempts = r.attempts
      simp only [upsertRow]
      rw [if_pos ⟨hst, hcap⟩]
  · intro store now p mp st fpr err wrk ma r hfind hv
    have h := findJob_upsertJob store now p mp st fpr err wrk ma hv
    rw [hfind] at h
    refine ⟨_, h, ?_⟩
    show (upsertRow (some r) now p mp (pyUpper st) fpr err wrk ma).attempts = _
    simp only [upsertRow]
    by_cases hrun : pyUpper st = "RUNNING"
    · by_cases hlt : r.attempts < max ma r.maxAttempts
      · rw [if_neg (fun hh => absurd hh.2 (by omega)), if_pos hrun, if_pos ⟨hrun, hlt⟩]
      · rw [if_pos ⟨Or.inr hrun, by omega⟩, if_neg (fun hh => hlt hh.2)]
    · have hR : ¬(pyUpper st = "RUNNING" ∧ r.attempts < max ma r.maxAttempts) :=
        fun hh => hrun hh.1
      rw [if_neg hR]
      by_cases hco : (pyUpper st = "QUEUED" ∨ pyUpper st = "RUNNING") ∧
          max ma r.maxAttempts ≤ r.attempts
      · rw [if_pos hco]
      · rw [if_neg hco, if_neg hrun]

/-- Witness for C2: the scenario store after three RUNNING upserts, hit with
a fourth QUEUED request, via the cap-enforcement part of the theorem. -/
theorem C2_witness :
    (findJob (upsertJob c2Store3 3 "p" 1 "QUEUED" (some "f") none none 3)
        (jobKeyOf "p" 1 (some "f"))).map (fun r => (r.status, r.attempts)) =
      some ("FAILED", 3) := by
  have hfind : findJob c2Store3 (jobKeyOf "p" 1 (some "f")) = some c2Row3 := by decide
  obtain ⟨r2, h2, hst, herr, hat⟩ := C2_attempt_cap.1 c2Store3 3 "p" 1 "QUEUED" (some "f")
    none none 3 c2Row3 hfind (Or.inl (by decide)) (by decide)
  rw [h2]
  simp only [Option.map_some']
  rw [hst, hat]
  decide

/-! ## Claim C5 -/

/-- Claim C5: across upserts on one job identity the stored max-attempts
ceiling is sticky — after a valid upsert on an existing row it equals the
maximum of the previously stored ceiling and the requested one (so it never
decreases, even when the request is smaller), and on a fresh row it equals
the requested ceiling. -/
theorem C5_sticky_max_attempts :
    (∀ (store : List JobRow) (now : Int) (p : String) (mp : Int) (st : String)
        (fpr err wrk : Option String) (ma : Int) (r : JobRow),
      pyUpper st ∈ STATUS_ALLOWED →
      findJob store (jobKeyOf p mp fpr) = some r →
      ∃ r2, findJob (upsertJob store now p mp st fpr err wrk ma) (jobKeyOf p mp fpr) = some r2 ∧
        r2.maxAttempts = max ma r.maxAttempts ∧ r.maxAttempts ≤ r2.maxAttempts) ∧
    (∀ (store : List JobRow) (now : Int) (p : String) (mp : Int) (st : String)
        (fpr err wrk : Option String) (ma : Int),
      pyUpper st ∈ STATUS_ALLOWED →
      findJob store (jobKeyOf p mp fpr) = none →
      ∃ r2, findJob (upsertJob store now p mp st fpr err wrk ma) (jobKeyOf p mp fpr) = some r2 ∧
        r2.maxAttempts = ma) := by
  constructor
  · intro store now p mp st fpr err wrk ma r hv hfind
    have h := findJob_upsertJob store now p mp st fpr err wrk ma hv
    rw [hfind] at h
    exact ⟨_, h, rfl, le_max_right _ _⟩
  · intro store now p mp st fpr err wrk ma hv hfind
    have h := findJob_upsertJob store now p mp st fpr err wrk ma hv
    rw [hfind] at h
    exact ⟨_, h, rfl⟩

/-- Witness for C5: a row stored with ceiling 5 keeps ceiling 5 when a later
upsert requests only 2. -/
theorem C5_witness :
    (findJob (upsertJob c5Store 1 "q" 1 "DONE" (some "g") none none 2)
        (jobKeyOf "q" 1 (some "g"))).map (fun r => r.maxAttempts) = some 5 := by
  have hfind : findJob c5Store (jobKeyOf "q" 1 (some "g")) = some c5Row := by decide
  obtain ⟨r2, h2, hmax, _⟩ := C5_sticky_max_attempts.1 c5Store 1 "q" 1 "DONE" (some "g")
    none none 2 c5Row (by decide) hfind
  rw [h2]
  simp only [Option.map_some']
  rw [hmax]
  decide

/-! ## Claim C4 -/

theorem stallReason_isSome_eq (now rt qt : Int) (r : JobRow) :
    (stallReason now rt qt r).isSome = stalledPerClaimB now rt qt r := by
  unfold stallReason stalledPerClaimB
  by_cases hR : r.status = "RUNNING"
  · cases hup : r.updatedAt with
    | none => simp [hR]
    | some t => by_cases hlt : t < now - rt <;> simp +decide [hR, hlt]
  · by_cases hQ : r.status = "QUEUED"
    · cases hup : r.updatedAt with
      | none => simp +decide [hR, hQ]
      | some t => by_cases hlt : t < now - qt <;> simp +decide [hR, hQ, hlt]
    · cases hup : r.updatedAt with
      | none => simp [hR, hQ]
      | some t => simp [hR, hQ]

theorem stalledPerClaim_iff (now rt qt : Int) (r : JobRow) :
    stalledPerClaim now rt qt r ↔ stalledPerClaimB now rt qt r = true := by
  unfold stalledPerClaim stalledPerClaimB
  cases hup : r.updatedAt with
  | none => simp [hup]
  | some t => simp [hup]

theorem sweepRow_of_claim (now rt qt : Int) (w : String) (r : JobRow)
    (h : stalledPerClaim now rt qt r) :
    (sweepRow now rt qt w r).status = "FAILED" ∧
    (sweepRow now rt qt w r).lastError.isSome = true ∧
    sweepRow now rt qt w r ≠ r := by
  have hb : (stallReason now rt qt r).isSome = true := by
    rw [stallReason_isSome_eq]
    exact (stalledPerClaim_iff now rt qt r).mp h
  obtain ⟨msg, hmsg⟩ := Option.isSome_iff_exists.mp hb
  have hstat : r.status = "RUNNING" ∨ r.status = "QUEUED" := by
    rcases h with ⟨h1, _⟩ | ⟨h1, _⟩ | ⟨h1, _⟩
    · exact Or.inl h1
    · exact Or.inr h1
    · exact h1
  refine ⟨by simp [sweepRow, hmsg], by simp [sweepRow, hmsg], ?_⟩
  intro heq
  have : ({ r with
      status := "FAILED"
      lastError := some msg
      updatedAt := some now
      workerId := some w } : JobRow).status = r.status := by
    conv_rhs => rw [← heq]
    simp [sweepRow, hmsg]
  simp only [] at this
  rcases hstat with h1 | h1 <;> rw [h1] at this <;> exact absurd this (by decide)

theorem sweepRow_of_not_claim (now rt qt : Int) (w : String) (r : JobRow)
    (h : ¬ stalledPerClaim now rt qt r) :
    sweepRow now rt qt w r = r := by
  have hb : (stallReason now rt qt r).isSome = false := by
    rw [stallReason_isSome_eq]
    cases hx : stalledPerClaimB now rt qt r with
    | true => exact absurd ((stalledPerClaim_iff now rt qt r).mpr hx) h
    | false => rfl
  have hnone : stallReason now rt qt r = none := Option.not_isSome_iff_eq_none.mp (by simp [hb])
  simp [sweepRow, hnone]

/-- Claim C4: the sweep keeps the store's length; it forces to FAILED (with a
reason recorded in `last_error`) exactly those rows that are RUNNING and
strictly older than the running timeout, QUEUED and strictly older than the
queued timeout, or RUNNING/QUEUED with an unparsable timestamp; every other
row — in particular every DONE row — is returned unchanged; and the returned
count is the number of rows satisfying that stall condition, i.e. the number
of rows it changed. -/
theorem C4_mark_stalled (store : List JobRow) (now rt qt : Int) (wid : String) :
    (markStalledJobs store now rt qt wid).1.length = store.length ∧
    (∀ i, i < store.length →
      ∃ r r2, store[i]? = some r ∧ (markStalledJobs store now rt qt wid).1[i]? = some r2 ∧
        (stalledPerClaim now rt qt r → r2.status = "FAILED" ∧ r2.lastError.isSome = true) ∧
        (¬ stalledPerClaim now rt qt r → r2 = r) ∧
        (r.status = "DONE" → r2 = r) ∧
        (r2 ≠ r ↔ stalledPerClaim now rt qt r)) ∧
    ((markStalledJobs store now rt qt wid).2 =
      (store.filter (fun r => stalledPerClaimB now rt qt r)).length) := by
  refine ⟨by simp [markStalledJobs], ?_, ?_⟩
  · intro i hi
    have hr : store[i]? = some store[i] := List.getElem?_eq_getElem hi
    refine ⟨store[i], sweepRow now rt qt wid store[i], hr, ?_, ?_, ?_, ?_, ?_⟩
    · simp only [markStalledJobs, List.getElem?_map, hr, Option.map_some']
    · intro hc
      exact ⟨(sweepRow_of_claim now rt qt wid _ hc).1, (sweepRow_of_claim now rt qt wid _ hc).2.1⟩
    · intro hc
      exact sweepRow_of_not_claim now rt qt wid _ hc
    · intro hdone
      apply sweepRow_of_not_claim
      intro hc
      rcases hc with ⟨h1, _⟩ | ⟨h1, _⟩ | ⟨h1, _⟩
      · rw [hdone] at h1; exact absurd h1 (by decide)
      · rw [hdone] at h1; exact absurd h1 (by decide)
      · rcases h1 with h1 | h1 <;> rw [hdone] at h1 <;> exact absurd h1 (by decide)
    · constructor
      · intro hne
        by_contra hc
        exact hne (sweepRow_of_not_claim now rt qt wid _ hc)
      · intro hc
        exact (sweepRow_of_claim now rt qt wid _ hc).2.2
  · simp only [markStalledJobs]
    congr 1
    apply List.filter_congr
    intro r _
    exact stallReason_isSome_eq now rt qt r

/-- Witness for C4: on a store holding a stale RUNNING row, a fresh RUNNING
row, a DONE row and a QUEUED row with an unparsable timestamp, the sweep at
`now = 1000` with timeouts 300/1800 changes exactly two rows. -/
theorem C4_witness :
    (markStalledJobs c4Store 1000 300 1800 "health").2 = 2 := by
  have h := (C4_mark_stalled c4Store 1000 300 1800 "health").2.2
  rw [h]
  decide

/-! ## Claim C1 -/

/-- Claim C1 (amended): on a memoizer miss where the persistent cache holds
text of at least 200 characters and at least 15 words for the identity,
`get_text_for_pdf` returns that cached text unchanged, populates the
memoizer with it, and performs neither direct text-layer extraction nor
recognition.  (When the cached text is non-empty but below the quality gate,
direct extraction is still skipped but the recognition fallback runs — see
the counterexample.) -/
theorem C1_cache_hit_amended (env : TextEnv) (memo : Memo) (path : String) (mp : Int)
    (hex : env.fileExists = true)
    (hm : memoLookup memo (textCacheKey path env.mtime mp) = none)
    (hfp : env.fingerprint ≠ "")
    (hct : env.cachedText ≠ "")
    (hlen : 200 ≤ env.cachedText.length)
    (hw : 15 ≤ pyWordCount env.cachedText) :
    (getTextForPdf env memo path mp).text = env.cachedText ∧
    memoLookup (getTextForPdf env memo path mp).memo (textCacheKey path env.mtime mp) =
      some env.cachedText ∧
    (getTextForPdf env memo path mp).directCalled = false ∧
    (getTextForPdf env memo path mp).ocrCalled = false := by
  have hw1 : decide (env.cachedText.length < 200) = false :=
    decide_eq_false_iff_not.mpr (by omega)
  have hw2 : decide (pyWordCount env.cachedText < 15) = false :=
    decide_eq_false_iff_not.mpr (by omega)
  refine ⟨?_, ?_, ?_, ?_⟩
  · simp [getTextForPdf, hex, hm, hfp, hct, hw1, hw2]
  · simp [getTextForPdf, hex, hm, hfp, hct, hw1, hw2, memoLookup_memoPut]
  · simp [getTextForPdf, hex, hm, hfp, hct, hw1, hw2]
  · simp [getTextForPdf, hex, hm, hfp, hct, hw1, hw2]

/-- Claim C1 counterexample: non-empty but weak cached text ("hello") misses
the memoizer, hits the persistent cache, and yet the recognition fallback
runs and its output replaces the cached text — contradicting "returns that
cached text unchanged ... and performs no recognition work". -/
theorem C1_counterexample :
    c1Env.cachedText ≠ "" ∧
    memoLookup [] (textCacheKey "/doc.pdf" c1Env.mtime 1) = none ∧
    (getTextForPdf c1Env [] "/doc.pdf" 1).ocrCalled = true ∧
    (getTextForPdf c1Env [] "/doc.pdf" 1).text ≠ c1Env.cachedText := by
  refine ⟨by decide, rfl, by decide, by decide⟩

set_option maxRecDepth 40000 in
/-- Witness for C1: a 224-character, 15-word cached text is returned
unchanged with no extraction and no recognition. -/
theorem C1_witness :
    (getTextForPdf c1StrongEnv [] "/w.pdf" 1).text = c1StrongText ∧
    memoLookup (getTextForPdf c1StrongEnv [] "/w.pdf" 1).memo
      (textCacheKey "/w.pdf" c1StrongEnv.mtime 1) = some c1StrongText ∧
    (getTextForPdf c1StrongEnv [] "/w.pdf" 1).directCalled = false ∧
    (getTextForPdf c1StrongEnv [] "/w.pdf" 1).ocrCalled = false := by
  have h := C1_cache_hit_amended c1StrongEnv [] "/w.pdf" 1 rfl rfl (by decide) (by decide)
    (by decide) (by decide)
  exact ⟨h.1, h.2.1, h.2.2.1, h.2.2.2⟩

/-! ## Claim C6 -/

/-- Claim C6: when fingerprint computation fails (empty fingerprint),
`get_text_for_pdf` neither reads from nor writes to the persistent cache,
still attempts direct extraction against the path, and returns the
best-effort text (the direct text, or the recognition output when the
fallback superseded it) instead of raising; and a persistent-cache get whose
supplied and computed fingerprints are both empty returns the empty result. -/
theorem C6_empty_fingerprint (env : TextEnv) (memo : Memo) (path : String) (mp : Int)
    (hex : env.fileExists = true)
    (hfp : env.fingerprint = "")
    (hm : memoLookup memo (textCacheKey path env.mtime mp) = none) :
    (getTextForPdf env memo path mp).persistentRead = false ∧
    (getTextForPdf env memo path mp).persistentWrite = none ∧
    (getTextForPdf env memo path mp).directCalled = true ∧
    ((getTextForPdf env memo path mp).text = env.directText ∨
      (getTextForPdf env memo path mp).text =
        (match env.ocrStagedPath with
         | some _ => env.ocrTextStaged
         | none => env.ocrTextDirect)) ∧
    (∀ (db : List CacheRow) (pth : String) (mpp : Int),
      getCachedText db pth mpp (some "") "" = "" ∧ getCachedText db pth mpp none "" = "") := by
  refine ⟨?_, ?_, ?_, ?_, fun db pth mpp => ⟨rfl, rfl⟩⟩
  · simp [getTextForPdf, hex, hm, hfp]
  · simp [getTextForPdf, hex, hm, hfp]
  · simp [getTextForPdf, hex, hm, hfp]
  · simp only [getTextForPdf, hex, if_true, hm, hfp]
    split_ifs <;> simp

/-- Witness for C6: a concrete environment whose `stat` failed. -/
theorem C6_witness :
    (getTextForPdf c6Env [] "/e.pdf" 1).persistentRead = false ∧
    (getTextForPdf c6Env [] "/e.pdf" 1).persistentWrite = none ∧
    (getTextForPdf c6Env [] "/e.pdf" 1).directCalled = true ∧
    getCachedText [] "/e.pdf" 1 (some "") "" = "" := by
  have h := C6_empty_fingerprint c6Env [] "/e.pdf" 1 rfl rfl rfl
  exact ⟨h.1, h.2.1, h.2.2.1, (h.2.2.2.2 [] "/e.pdf" 1).1⟩

/-! ## Claim C7 -/

/-- Claim C7: on a memoizer miss with no persistent-cache text, the
recognition fallback runs exactly when the direct-extraction text is shorter
than 200 characters or has fewer than 15 words. -/
theorem C7_quality_gate (env : TextEnv) (memo : Memo) (path : String) (mp : Int)
    (hex : env.fileExists = true)
    (hm : memoLookup memo (textCacheKey path env.mtime mp) = none)
    (hmiss : env.fingerprint = "" ∨ env.cachedText = "") :
    (getTextForPdf env memo path mp).ocrCalled =
      (decide (env.directText.length < 200) || decide (pyWordCount env.directText < 15)) := by
  rcases hmiss with hfp | hct
  · simp [getTextForPdf, hex, hm, hfp]
  · by_cases hfp : env.fingerprint = ""
    · simp [getTextForPdf, hex, hm, hfp]
    · simp [getTextForPdf, hex, hm, hfp, hct]

set_option maxRecDepth 40000 in
/-- Witness for C7: 50 characters / 5 words of direct text trigger
recognition; 500 characters / 80 words do not. -/
theorem C7_witness :
    (getTextForPdf c7Env50 [] "/a.pdf" 1).ocrCalled = true ∧
    (getTextForPdf c7Env500 [] "/a.pdf" 1).ocrCalled = false := by
  constructor
  · have h := C7_quality_gate c7Env50 [] "/a.pdf" 1 rfl rfl (Or.inl rfl)
    rw [h]
    decide
  · have h := C7_quality_gate c7Env500 [] "/a.pdf" 1 rfl rfl (Or.inl rfl)
    rw [h]
    decide

end DocSort
